import Mathlib

/-!
Verification of the rolling-stats baseball pipeline
(`recent_stats_evaluation.py`).

The embedding models the core pipeline over `List` and `ℚ`:

* a raw plate-appearance record (`Event`) carries a batter id, a
  date-granularity timestamp (as `ℤ`), and an optional outcome category;
* pandas `NaN` cells are modelled as `none : Option ℚ`;
* `get_pa_outcomes` attaches the three outcome signals to every record;
* `compute_rolling_stats` produces, per window size `1..max_window`,
  one row per timeline position with trailing means and shifted targets;
* `process_all_players` groups by batter, applies the 260-event
  minimum-history threshold, concatenates and drops undefined rows
  (a raised `ValueError` from concatenating an empty collection is
  modelled as `Except.error`);
* `compute_correlations` groups the unified table by window size and
  computes Pearson correlations, `NaN` results being `none : Option ℝ`.

The minimum-history threshold and the maximum window size appear as
explicit parameters (the source fixes them to 260 and 250; theorems about
those literals instantiate the parameters accordingly).
-/

/-- One raw plate-appearance record: batter id, date-granularity
timestamp, and the optional outcome category (`none` models a null
`events` cell). -/
structure Event where
  batter : ℕ
  game_date : ℤ
  events : Option String
deriving DecidableEq, Inhabited

/-- A record together with its three derived outcome signals. -/
structure LabeledEvent where
  batter : ℕ
  game_date : ℤ
  events : Option String
  is_hit : ℚ
  is_on_base : ℚ
  total_bases : ℚ
deriving DecidableEq, Inhabited

/-- One row of the rolling-stats table produced per (position, window)
pair; `none` fields model `NaN` cells. -/
structure RollingObs where
  player_id : ℕ
  game_date : ℤ
  rolling_window : ℕ
  rolling_avg : Option ℚ
  rolling_obp : Option ℚ
  rolling_slg : Option ℚ
  next_is_hit : Option ℚ
  next_is_on_base : Option ℚ
  next_total_bases : Option ℚ
deriving DecidableEq, Inhabited

/-- The categories counted as hits by the isin test on the events
column, line 80 of the source. -/
def hitEvents : List String := ["single", "double", "triple", "home_run"]

/-- The categories counted as on-base events (line 81 of the source). -/
def onBaseEvents : List String :=
  ["single", "double", "triple", "home_run", "walk", "hit_by_pitch"]

/-- The `total_bases` category mapping passed to `.map` on line 82. -/
def totalBasesMap : List (String × ℚ) :=
  [("single", 1), ("double", 2), ("triple", 3), ("home_run", 4)]

/-- Semantics of `series.isin(vals)` for one cell: a null cell is never
in the list. -/
def seriesIsin (x : Option String) (vals : List String) : Bool :=
  match x with
  | some s => vals.contains s
  | none => false

/-- Semantics of `series.map(m)` for one cell: `none` (pandas `NaN`)
when the cell is
null or the category is not a key of the mapping. -/
def seriesMapLookup (x : Option String) (m : List (String × ℚ)) : Option ℚ :=
  x.bind fun s => m.lookup s

/-- The Outcome Labeler restricted to one record: the per-row effect of
`get_pa_outcomes` (source lines 79-83). `isin(...).astype(int)` yields
1/0 and `.map({...}).fillna(0)` yields the base count with 0 default. -/
def labelEvent (e : Event) : LabeledEvent :=
  { batter := e.batter
    game_date := e.game_date
    events := e.events
    is_hit := if seriesIsin e.events hitEvents then 1 else 0
    is_on_base := if seriesIsin e.events onBaseEvents then 1 else 0
    total_bases := (seriesMapLookup e.events totalBasesMap).getD 0 }

/-- Function `get_pa_outcomes` (source lines 79-83): label every
record. -/
def get_pa_outcomes (df : List Event) : List LabeledEvent :=
  df.map labelEvent

/-- C2: the Outcome Labeler is a total function: `is_hit` is 1 exactly on
{single, double, triple, home_run} and 0 otherwise, `is_on_base` is 1
exactly on {single, double, triple, home_run, walk, hit_by_pitch} and 0
otherwise, and `total_bases` follows the mapping single 1, double 2,
triple 3, home_run 4 with 0 for every other or absent category; being a
Lean function of type `Event → LabeledEvent` it is defined on every
input category, so no category causes a failure. -/
theorem labelEvent_total_mapping (e : Event) :
    ((labelEvent e).is_hit =
      if e.events ∈ [some "single", some "double", some "triple", some "home_run"]
      then (1 : ℚ) else 0)
    ∧ ((labelEvent e).is_on_base =
      if e.events ∈ [some "single", some "double", some "triple", some "home_run",
        some "walk", some "hit_by_pitch"]
      then (1 : ℚ) else 0)
    ∧ ((labelEvent e).total_bases =
      if e.events = some "single" then (1 : ℚ)
      else if e.events = some "double" then 2
      else if e.events = some "triple" then 3
      else if e.events = some "home_run" then 4
      else 0) := by
  obtain ⟨b, d, c⟩ := e
  rcases c with _ | s
  · refine ⟨?_, ?_, ?_⟩ <;> simp [labelEvent, seriesIsin, seriesMapLookup]
  · refine ⟨?_, ?_, ?_⟩ <;>
      simp only [labelEvent, seriesIsin, seriesMapLookup, hitEvents, onBaseEvents,
        totalBasesMap, Option.bind_some, List.lookup, Option.getD,
        List.contains_cons, List.elem_nil, Bool.or_eq_true, beq_eq_decide,
        List.mem_cons, List.not_mem_nil, or_false, Option.some.injEq] <;>
      by_cases h1 : s = "single" <;> by_cases h2 : s = "double" <;>
      by_cases h3 : s = "triple" <;> by_cases h4 : s = "home_run" <;>
      by_cases h5 : s = "walk" <;> by_cases h6 : s = "hit_by_pitch" <;>
      simp [h1, h2, h3, h4, h5, h6]

/-- C3: for every event record the labeled signals satisfy the
invariant: a hit implies reaching base, and positive total bases imply a
hit. -/
theorem labelEvent_invariant (e : Event) :
    ((labelEvent e).is_hit = 1 → (labelEvent e).is_on_base = 1)
    ∧ (0 < (labelEvent e).total_bases → (labelEvent e).is_hit = 1) := by
  obtain ⟨b, d, c⟩ := e
  rcases c with _ | s
  · simp [labelEvent, seriesIsin, seriesMapLookup]
  · simp only [labelEvent, seriesIsin, seriesMapLookup, hitEvents, onBaseEvents,
      totalBasesMap, Option.bind_some, List.lookup, Option.getD,
      List.contains_cons, List.elem_nil, Bool.or_eq_true, beq_eq_decide]
    by_cases h1 : s = "single" <;> by_cases h2 : s = "double" <;>
      by_cases h3 : s = "triple" <;> by_cases h4 : s = "home_run" <;>
      simp [h1, h2, h3, h4]

/-- Witness for C3 at concrete records: a double is on base, and a
record with positive total bases (a triple) is a hit. -/
theorem labelEvent_invariant_witness :
    (labelEvent ⟨7, 0, some "double"⟩).is_on_base = 1
    ∧ (labelEvent ⟨7, 0, some "triple"⟩).is_hit = 1 :=
  ⟨(labelEvent_invariant ⟨7, 0, some "double"⟩).1 (by decide),
   (labelEvent_invariant ⟨7, 0, some "triple"⟩).2 (by decide)⟩

/-- Sorting step of source line 86 (sort_values by the game_date
column): sort the timeline ascending by timestamp. The embedding uses an
insertion sort; note that the pandas default sort kind in the source is
quicksort, which gives no guarantee on the relative order of equal
timestamps. -/
def sortByDate (df : List LabeledEvent) : List LabeledEvent :=
  df.insertionSort fun a b => a.game_date ≤ b.game_date

/-- Semantics of `series.rolling(w).mean()` (source lines 90-92):
position `i` holds
the mean of the trailing `w` values ending at `i`, and `NaN` (`none`)
while fewer than `w` values are available. -/
def rollingMeanCol (xs : List ℚ) (w : ℕ) : List (Option ℚ) :=
  (List.range xs.length).map fun i =>
    if w ≤ i + 1 then some (((xs.drop (i + 1 - w)).take w).sum / (w : ℚ)) else none

/-- Semantics of `series.shift(-1)` (source lines 101-103): position
`i` holds the
value at `i+1`, and `NaN` (`none`) at the final position. -/
def shiftm1 (xs : List ℚ) : List (Option ℚ) :=
  match xs with
  | [] => []
  | _ :: t => t.map some ++ [none]

/-- One pass of the window loop body (source lines 90-106): the rows of
the per-window `DataFrame` `temp`, one per position of the sorted
timeline `d`. -/
def rollingPass (d : List LabeledEvent) (w : ℕ) : List RollingObs :=
  (List.range d.length).map fun i =>
    { player_id := (d.getD i default).batter
      game_date := (d.getD i default).game_date
      rolling_window := w
      rolling_avg := (rollingMeanCol (d.map LabeledEvent.is_hit) w).getD i none
      rolling_obp := (rollingMeanCol (d.map LabeledEvent.is_on_base) w).getD i none
      rolling_slg := (rollingMeanCol (d.map LabeledEvent.total_bases) w).getD i none
      next_is_hit := (shiftm1 (d.map LabeledEvent.is_hit)).getD i none
      next_is_on_base := (shiftm1 (d.map LabeledEvent.is_on_base)).getD i none
      next_total_bases := (shiftm1 (d.map LabeledEvent.total_bases)).getD i none }

/-- Function `compute_rolling_stats` (source lines 85-108): sort by
date, run one
pass per window size 1..max_window, and concatenate the passes. The
source default for `max_window` is 250. -/
def compute_rolling_stats (df : List LabeledEvent) (max_window : ℕ) : List RollingObs :=
  ((List.range' 1 max_window).map (rollingPass (sortByDate df))).flatten

/-- The Windowed Feature Generator as the spec words it (section 4.2):
for every window size W in 1..Wmax and every 0-indexed position i of the
chronologically sorted timeline, the trailing simple mean of each signal
over positions `[i-W+1, i]` (defined only when `i ≥ W-1`), and the
`next_*` targets equal to the signals at position `i+1` (defined only
when `i+1 < L`). -/
def rollingObsSpec (df : List LabeledEvent) (max_window : ℕ) : List RollingObs :=
  let d := sortByDate df
  ((List.range' 1 max_window).map fun w =>
    (List.range d.length).map fun i =>
      { player_id := (d.getD i default).batter
        game_date := (d.getD i default).game_date
        rolling_window := w
        rolling_avg := if w - 1 ≤ i then
            some ((∑ j ∈ Finset.Icc (i + 1 - w) i,
              (d.map LabeledEvent.is_hit).getD j 0) / (w : ℚ))
          else none
        rolling_obp := if w - 1 ≤ i then
            some ((∑ j ∈ Finset.Icc (i + 1 - w) i,
              (d.map LabeledEvent.is_on_base).getD j 0) / (w : ℚ))
          else none
        rolling_slg := if w - 1 ≤ i then
            some ((∑ j ∈ Finset.Icc (i + 1 - w) i,
              (d.map LabeledEvent.total_bases).getD j 0) / (w : ℚ))
          else none
        next_is_hit := if i + 1 < d.length then
            some ((d.map LabeledEvent.is_hit).getD (i + 1) 0) else none
        next_is_on_base := if i + 1 < d.length then
            some ((d.map LabeledEvent.is_on_base).getD (i + 1) 0) else none
        next_total_bases := if i + 1 < d.length then
            some ((d.map LabeledEvent.total_bases).getD (i + 1) 0) else none }).flatten

lemma getD_map_range {α : Type} (f : ℕ → α) (L i : ℕ) (d : α) (hi : i < L) :
    ((List.range L).map f).getD i d = f i := by
  rw [List.getD_eq_getElem?_getD, List.getElem?_map, List.getElem?_range hi]
  rfl

lemma sum_take_q (ys : List ℚ) (b : ℕ) (hb : b ≤ ys.length) :
    (ys.take b).sum = ∑ k ∈ Finset.range b, ys.getD k 0 := by
  induction ys generalizing b with
  | nil =>
    have : b = 0 := Nat.le_zero.mp (by simpa using hb)
    subst this; simp
  | cons y t ih =>
    cases b with
    | zero => simp
    | succ b' =>
      have hb' : b' ≤ t.length := by simpa using hb
      rw [List.take_succ_cons, List.sum_cons, Finset.sum_range_succ', ih b' hb']
      simp [add_comm]

lemma sum_slice_q (xs : List ℚ) (a b : ℕ) (h : a + b ≤ xs.length) :
    ((xs.drop a).take b).sum = ∑ k ∈ Finset.range b, xs.getD (a + k) 0 := by
  rw [sum_take_q _ b (by rw [List.length_drop]; omega)]
  refine Finset.sum_congr rfl fun k _ => ?_
  rw [List.getD_eq_getElem?_getD, List.getD_eq_getElem?_getD, List.getElem?_drop]

lemma rollingMeanCol_getD (xs : List ℚ) (w i : ℕ) (hi : i < xs.length) :
    (rollingMeanCol xs w).getD i none =
      if w - 1 ≤ i then
        some ((∑ j ∈ Finset.Icc (i + 1 - w) i, xs.getD j 0) / (w : ℚ))
      else none := by
  unfold rollingMeanCol
  rw [getD_map_range _ _ _ _ hi]
  by_cases hw : w ≤ i + 1
  · rw [if_pos hw, if_pos (by omega)]
    congr 1
    rw [sum_slice_q xs (i + 1 - w) w (by omega), ← Nat.Ico_succ_right,
      Finset.sum_Ico_eq_sum_range]
    have hww : i + 1 - (i + 1 - w) = w := by omega
    rw [hww]
  · rw [if_neg hw, if_neg (by omega)]

lemma shiftm1_getD (xs : List ℚ) (i : ℕ) (hi : i < xs.length) :
    (shiftm1 xs).getD i none =
      if i + 1 < xs.length then some (xs.getD (i + 1) 0) else none := by
  cases xs with
  | nil => simp at hi
  | cons y t =>
    have hl : i < t.length + 1 := by simpa using hi
    by_cases h : i < t.length
    · rw [if_pos (by simp only [List.length_cons]; omega)]
      show (t.map some ++ [none]).getD i none = some ((y :: t).getD (i + 1) 0)
      rw [List.getD_eq_getElem?_getD, List.getElem?_append,
        if_pos (by simpa using h), List.getElem?_map, List.getElem?_eq_getElem h]
      simp [List.getD_cons_succ, List.getD_eq_getElem?_getD,
        List.getElem?_eq_getElem h]
    · have hit : i = t.length := by omega
      rw [if_neg (by simp only [List.length_cons]; omega)]
      subst hit
      show (t.map some ++ [none]).getD t.length none = none
      rw [List.getD_eq_getElem?_getD, List.getElem?_append,
        if_neg (by simp)]
      simp

/-- C1: for every timeline and every window size W in 1..max_window, the
Windowed Feature Generator produces at every position exactly what the
spec describes: the trailing simple mean of each signal over positions
`[i-W+1, i]`, defined only when `i ≥ W-1`, and the `next_*` targets equal
to the signals at position `i+1`, defined only when `i+1 < L`. -/
theorem compute_rolling_stats_eq_spec (df : List LabeledEvent) (max_window : ℕ) :
    compute_rolling_stats df max_window = rollingObsSpec df max_window := by
  simp only [compute_rolling_stats, rollingObsSpec]
  congr 1
  apply List.map_congr_left
  intro w _
  unfold rollingPass
  apply List.map_congr_left
  intro i hi
  have hi' : i < (sortByDate df).length := List.mem_range.mp hi
  have hhit : i < ((sortByDate df).map LabeledEvent.is_hit).length := by
    simpa using hi'
  have hob : i < ((sortByDate df).map LabeledEvent.is_on_base).length := by
    simpa using hi'
  have htb : i < ((sortByDate df).map LabeledEvent.total_bases).length := by
    simpa using hi'
  simp only [RollingObs.mk.injEq, rollingMeanCol_getD _ _ _ hhit,
    rollingMeanCol_getD _ _ _ hob, rollingMeanCol_getD _ _ _ htb,
    shiftm1_getD _ _ hhit, shiftm1_getD _ _ hob, shiftm1_getD _ _ htb,
    List.length_map]

/-- The sorted distinct keys a pandas `groupby` iterates over
(`groupby` sorts group keys ascending). -/
def sortedKeys (l : List ℕ) : List ℕ :=
  l.dedup.insertionSort (· ≤ ·)

/-- The batter ids `process_all_players` iterates over
(the groupby on the batter column, source line 115). -/
def battersOf (d : List LabeledEvent) : List ℕ :=
  sortedKeys (d.map LabeledEvent.batter)

/-- Row predicate of `final_df.dropna()` (source line 125): true when no
cell of the row is `NaN` (the first three columns are never null). -/
def obsDefined (r : RollingObs) : Bool :=
  r.rolling_avg.isSome && r.rolling_obp.isSome && r.rolling_slg.isSome &&
    r.next_is_hit.isSome && r.next_is_on_base.isSome && r.next_total_bases.isSome

/-- Function `process_all_players` (source lines 110-128): label, group
by batter,
skip groups shorter than `min_len` (260 in the source), run the window
generator on the rest, concatenate, and drop undefined rows.
`pd.concat` of an empty collection raises `ValueError: No objects to
concatenate`, modelled as `Except.error`. -/
def process_all_players (data : List Event) (min_len max_window : ℕ) :
    Except String (List RollingObs) :=
  let d := get_pa_outcomes data
  let all_rolling := (battersOf d).filterMap fun b =>
    let g := d.filter fun e => e.batter == b
    if g.length < min_len then none else some (compute_rolling_stats g max_window)
  if all_rolling.isEmpty then Except.error "No objects to concatenate"
  else Except.ok (all_rolling.flatten.filter obsDefined)

lemma getD_mem_of_lt {α : Type} [Inhabited α] (l : List α) (i : ℕ)
    (hi : i < l.length) : l.getD i default ∈ l := by
  rw [List.getD_eq_getElem?_getD, List.getElem?_eq_getElem hi]
  simp only [Option.getD_some]
  exact List.getElem_mem hi

lemma sortByDate_length (df : List LabeledEvent) :
    (sortByDate df).length = df.length :=
  List.length_insertionSort _ _

lemma mem_sortByDate {e : LabeledEvent} {df : List LabeledEvent} :
    e ∈ sortByDate df ↔ e ∈ df :=
  List.mem_insertionSort _

lemma batter_of_mem_filter {d : List LabeledEvent} {b : ℕ} {e : LabeledEvent}
    (he : e ∈ d.filter fun x => x.batter == b) : e.batter = b := by
  have h := (List.mem_filter.mp he).2
  simpa [beq_iff_eq] using h

lemma player_id_of_mem_compute {g : List LabeledEvent} {mw : ℕ} {r : RollingObs}
    (hr : r ∈ compute_rolling_stats g mw) : ∃ e ∈ g, r.player_id = e.batter := by
  simp only [compute_rolling_stats] at hr
  rcases List.mem_flatten.mp hr with ⟨bl, hbl, hrbl⟩
  rcases List.mem_map.mp hbl with ⟨w, hw, rfl⟩
  unfold rollingPass at hrbl
  rcases List.mem_map.mp hrbl with ⟨i, hi, rfl⟩
  have hi' : i < (sortByDate g).length := List.mem_range.mp hi
  exact ⟨(sortByDate g).getD i default,
    mem_sortByDate.mp (getD_mem_of_lt _ _ hi'), rfl⟩

/-- C4: a player whose timeline has exactly 259 events contributes no row
to the unified output of the Multi-Player Aggregator (threshold 260,
window cap 250), while a player with exactly 260 events contributes at
least one fully defined row with window size 1. -/
theorem process_all_players_threshold (data : List Event) (b : ℕ) :
    (((get_pa_outcomes data).filter fun e => e.batter == b).length = 259 →
      ∀ t, process_all_players data 260 250 = Except.ok t →
        ∀ r ∈ t, r.player_id ≠ b)
    ∧ (((get_pa_outcomes data).filter fun e => e.batter == b).length = 260 →
      ∃ t, process_all_players data 260 250 = Except.ok t
        ∧ ∃ r ∈ t, r.player_id = b ∧ r.rolling_window = 1 ∧ obsDefined r = true) := by
  constructor
  · intro h259 t hok r hrt
    simp only [process_all_players] at hok
    split at hok
    · exact absurd hok (by simp)
    · rw [Except.ok.injEq] at hok
      subst hok
      have hr1 := List.mem_filter.mp hrt
      rcases List.mem_flatten.mp hr1.1 with ⟨bl, hbl, hrbl⟩
      rcases List.mem_filterMap.mp hbl with ⟨b', hb', hsome⟩
      by_cases hlen : ((get_pa_outcomes data).filter fun e => e.batter == b').length < 260
      · rw [if_pos hlen] at hsome
        exact absurd hsome (by simp)
      · rw [if_neg hlen] at hsome
        rw [Option.some.injEq] at hsome
        subst hsome
        rcases player_id_of_mem_compute hrbl with ⟨e, he, hpe⟩
        have hbeq2 := batter_of_mem_filter he
        intro hcontra
        have : b' = b := by rw [← hbeq2, ← hpe, hcontra]
        subst this
        omega
  · intro h260
    have h0 : 0 < (sortByDate ((get_pa_outcomes data).filter
        fun e => e.batter == b)).length := by
      rw [sortByDate_length, h260]; omega
    have hbmem : b ∈ battersOf (get_pa_outcomes data) := by
      have hne : ((get_pa_outcomes data).filter fun e => e.batter == b) ≠ [] := by
        intro hnil
        rw [hnil] at h260
        simp at h260
      rcases List.exists_mem_of_ne_nil _ hne with ⟨e, he⟩
      have heb := batter_of_mem_filter he
      have hed : e ∈ get_pa_outcomes data := (List.mem_filter.mp he).1
      unfold battersOf sortedKeys
      rw [List.mem_insertionSort, List.mem_dedup]
      exact List.mem_map.mpr ⟨e, hed, heb⟩
    have hblock : compute_rolling_stats
        ((get_pa_outcomes data).filter fun e => e.batter == b) 250 ∈
        (battersOf (get_pa_outcomes data)).filterMap fun b' =>
          if ((get_pa_outcomes data).filter fun e => e.batter == b').length < 260
          then none
          else some (compute_rolling_stats
            ((get_pa_outcomes data).filter fun e => e.batter == b') 250) := by
      refine List.mem_filterMap.mpr ⟨b, hbmem, ?_⟩
      rw [if_neg (by omega)]
    -- the concrete window-1 row at position 0 of the sorted timeline
    set g : List LabeledEvent :=
      (get_pa_outcomes data).filter fun e => e.batter == b with hgd
    set d' : List LabeledEvent := sortByDate g with hdsort
    have hL : d'.length = 260 := by
      rw [hdsort, sortByDate_length]
      exact h260
    set r₀ : RollingObs :=
      { player_id := (d'.getD 0 default).batter
        game_date := (d'.getD 0 default).game_date
        rolling_window := 1
        rolling_avg := (rollingMeanCol (d'.map LabeledEvent.is_hit) 1).getD 0 none
        rolling_obp := (rollingMeanCol (d'.map LabeledEvent.is_on_base) 1).getD 0 none
        rolling_slg := (rollingMeanCol (d'.map LabeledEvent.total_bases) 1).getD 0 none
        next_is_hit := (shiftm1 (d'.map LabeledEvent.is_hit)).getD 0 none
        next_is_on_base := (shiftm1 (d'.map LabeledEvent.is_on_base)).getD 0 none
        next_total_bases := (shiftm1 (d'.map LabeledEvent.total_bases)).getD 0 none }
      with hr₀def
    have hr₀pass : r₀ ∈ rollingPass d' 1 := by
      unfold rollingPass
      exact List.mem_map.mpr ⟨0, List.mem_range.mpr (by omega), rfl⟩
    have havg : r₀.rolling_avg.isSome = true := by
      rw [hr₀def]
      show ((rollingMeanCol (d'.map LabeledEvent.is_hit) 1).getD 0 none).isSome = true
      rw [rollingMeanCol_getD _ _ _ (by simp; omega)]
      simp
    have hobp : r₀.rolling_obp.isSome = true := by
      rw [hr₀def]
      show ((rollingMeanCol (d'.map LabeledEvent.is_on_base) 1).getD 0 none).isSome = true
      rw [rollingMeanCol_getD _ _ _ (by simp; omega)]
      simp
    have hslg : r₀.rolling_slg.isSome = true := by
      rw [hr₀def]
      show ((rollingMeanCol (d'.map LabeledEvent.total_bases) 1).getD 0 none).isSome = true
      rw [rollingMeanCol_getD _ _ _ (by simp; omega)]
      simp
    have hnh : r₀.next_is_hit.isSome = true := by
      rw [hr₀def]
      show ((shiftm1 (d'.map LabeledEvent.is_hit)).getD 0 none).isSome = true
      rw [shiftm1_getD _ _ (by simp; omega)]
      rw [if_pos (by simp [hL])]
      rfl
    have hno : r₀.next_is_on_base.isSome = true := by
      rw [hr₀def]
      show ((shiftm1 (d'.map LabeledEvent.is_on_base)).getD 0 none).isSome = true
      rw [shiftm1_getD _ _ (by simp; omega)]
      rw [if_pos (by simp [hL])]
      rfl
    have hnt : r₀.next_total_bases.isSome = true := by
      rw [hr₀def]
      show ((shiftm1 (d'.map LabeledEvent.total_bases)).getD 0 none).isSome = true
      rw [shiftm1_getD _ _ (by simp; omega)]
      rw [if_pos (by simp [hL])]
      rfl
    have hdef : obsDefined r₀ = true := by
      unfold obsDefined
      rw [havg, hobp, hslg, hnh, hno, hnt]
      rfl
    have hpid : r₀.player_id = b := by
      show (d'.getD 0 default).batter = b
      apply batter_of_mem_filter (d := get_pa_outcomes data)
      have hmem : d'.getD 0 default ∈ d' := getD_mem_of_lt _ _ (by omega)
      rw [hdsort] at hmem
      exact mem_sortByDate.mp hmem
    have hr₀comp : r₀ ∈ compute_rolling_stats g 250 := by
      simp only [compute_rolling_stats]
      refine List.mem_flatten.mpr ⟨rollingPass d' 1, ?_, hr₀pass⟩
      refine List.mem_map.mpr ⟨1, ?_, by rw [hdsort]⟩
      exact List.mem_range'.mpr ⟨0, by omega, by omega⟩
    have hne : ¬((battersOf (get_pa_outcomes data)).filterMap fun b' =>
        if ((get_pa_outcomes data).filter fun e => e.batter == b').length < 260
        then none
        else some (compute_rolling_stats
          ((get_pa_outcomes data).filter fun e => e.batter == b') 250)).isEmpty
        = true := by
      simp only [List.isEmpty_eq_false.mpr (List.ne_nil_of_mem hblock),
        Bool.false_eq_true, not_false_eq_true]
    have hok : process_all_players data 260 250 = Except.ok
        ((((battersOf (get_pa_outcomes data)).filterMap fun b' =>
          if ((get_pa_outcomes data).filter fun e => e.batter == b').length < 260
          then none
          else some (compute_rolling_stats
            ((get_pa_outcomes data).filter fun e => e.batter == b') 250)).flatten).filter
          obsDefined) := by
      simp only [process_all_players]
      rw [if_neg hne]
    refine ⟨_, hok, r₀, ?_, hpid, rfl, hdef⟩
    exact List.mem_filter.mpr
      ⟨List.mem_flatten.mpr ⟨compute_rolling_stats g 250, hblock, hr₀comp⟩, hdef⟩

/-- 259 identical plate appearances for batter 7 (one short of the
threshold). -/
def eventsA : List Event := List.replicate 259 ⟨7, 0, some "single"⟩

/-- 260 identical plate appearances for batter 7 (exactly at the
threshold). -/
def eventsB : List Event := List.replicate 260 ⟨7, 0, some "single"⟩

set_option maxRecDepth 40000 in
/-- Witness for C4: batter 7 has exactly 259 events in `eventsA` and
contributes no row, and exactly 260 events in `eventsB` and contributes a
defined window-1 row. -/
theorem process_all_players_threshold_witness :
    (((get_pa_outcomes eventsA).filter fun e => e.batter == 7).length = 259
      ∧ ∀ t, process_all_players eventsA 260 250 = Except.ok t →
          ∀ r ∈ t, r.player_id ≠ 7)
    ∧ (((get_pa_outcomes eventsB).filter fun e => e.batter == 7).length = 260
      ∧ ∃ t, process_all_players eventsB 260 250 = Except.ok t
          ∧ ∃ r ∈ t, r.player_id = 7 ∧ r.rolling_window = 1 ∧ obsDefined r = true) :=
  ⟨⟨by decide, (process_all_players_threshold eventsA 7).1 (by decide)⟩,
   ⟨by decide, (process_all_players_threshold eventsB 7).2 (by decide)⟩⟩

/-- C9: when no batter reaches 260 events the Multi-Player Aggregator
fails with the explicit empty-collection error (the `ValueError` raised
by `pd.concat([])`), while the presence of one qualifying batter yields a
normal `ok` result even though shorter timelines are skipped. -/
theorem process_all_players_empty_result (data : List Event) :
    ((∀ b : ℕ, ((get_pa_outcomes data).filter fun e => e.batter == b).length < 260) →
      process_all_players data 260 250 = Except.error "No objects to concatenate")
    ∧ ((∃ b : ℕ, 260 ≤ ((get_pa_outcomes data).filter fun e => e.batter == b).length) →
      ∃ t, process_all_players data 260 250 = Except.ok t) := by
  constructor
  · intro hall
    have hnil : ((battersOf (get_pa_outcomes data)).filterMap fun b' =>
        if ((get_pa_outcomes data).filter fun e => e.batter == b').length < 260
        then none
        else some (compute_rolling_stats
          ((get_pa_outcomes data).filter fun e => e.batter == b') 250)) = [] := by
      refine List.filterMap_eq_nil_iff.mpr fun b' _ => ?_
      rw [if_pos (hall b')]
    simp only [process_all_players]
    rw [hnil]
    rfl
  · intro hex
    rcases hex with ⟨b, hb⟩
    have hbmem : b ∈ battersOf (get_pa_outcomes data) := by
      have hne : ((get_pa_outcomes data).filter fun e => e.batter == b) ≠ [] := by
        intro hnil
        rw [hnil] at hb
        simp at hb
      rcases List.exists_mem_of_ne_nil _ hne with ⟨e, he⟩
      have heb := batter_of_mem_filter he
      have hed : e ∈ get_pa_outcomes data := (List.mem_filter.mp he).1
      unfold battersOf sortedKeys
      rw [List.mem_insertionSort, List.mem_dedup]
      exact List.mem_map.mpr ⟨e, hed, heb⟩
    have hblock : compute_rolling_stats
        ((get_pa_outcomes data).filter fun e => e.batter == b) 250 ∈
        (battersOf (get_pa_outcomes data)).filterMap fun b' =>
          if ((get_pa_outcomes data).filter fun e => e.batter == b').length < 260
          then none
          else some (compute_rolling_stats
            ((get_pa_outcomes data).filter fun e => e.batter == b') 250) := by
      refine List.mem_filterMap.mpr ⟨b, hbmem, ?_⟩
      rw [if_neg (by omega)]
    have hne : ¬((battersOf (get_pa_outcomes data)).filterMap fun b' =>
        if ((get_pa_outcomes data).filter fun e => e.batter == b').length < 260
        then none
        else some (compute_rolling_stats
          ((get_pa_outcomes data).filter fun e => e.batter == b') 250)).isEmpty
        = true := by
      simp only [List.isEmpty_eq_false.mpr (List.ne_nil_of_mem hblock),
        Bool.false_eq_true, not_false_eq_true]
    refine ⟨(((battersOf (get_pa_outcomes data)).filterMap fun b' =>
      if ((get_pa_outcomes data).filter fun e => e.batter == b').length < 260
      then none
      else some (compute_rolling_stats
        ((get_pa_outcomes data).filter fun e => e.batter == b') 250)).flatten).filter
      obsDefined, ?_⟩
    simp only [process_all_players]
    rw [if_neg hne]

/-- A single short timeline: batter 3 with one walk. -/
def eventsC : List Event := [⟨3, 5, some "walk"⟩]

/-- 260 events with a null outcome category for batter 9. -/
def eventsD : List Event := List.replicate 260 ⟨9, 1, none⟩

set_option maxRecDepth 40000 in
/-- Witness for C9: the one-event dataset yields the explicit
empty-result error, and one qualifying batter yields an `ok` result. -/
theorem process_all_players_empty_result_witness :
    process_all_players eventsC 260 250 = Except.error "No objects to concatenate"
    ∧ ∃ t, process_all_players eventsD 260 250 = Except.ok t :=
  ⟨(process_all_players_empty_result eventsC).1
      (fun b => lt_of_le_of_lt (List.length_filter_le _ _) (by decide)),
   (process_all_players_empty_result eventsD).2 ⟨9, by decide⟩⟩

lemma countP_range_lt (m L : ℕ) :
    (List.range L).countP (fun i => decide (i < m)) = min m L := by
  induction L with
  | zero => simp
  | succ n ih =>
    rw [List.range_succ, List.countP_append, ih]
    by_cases h : n < m <;> simp [List.countP_cons, h] <;> omega

lemma countP_range_ge (L w : ℕ) :
    (List.range L).countP (fun i => decide (w ≤ i + 1)) = L - (w - 1) := by
  induction L with
  | zero => simp
  | succ n ih =>
    rw [List.range_succ, List.countP_append, ih]
    by_cases h : w ≤ n + 1 <;> simp [List.countP_cons, h] <;> omega

lemma countP_range_next (L : ℕ) :
    (List.range L).countP (fun i => decide (i + 1 < L)) = L - 1 := by
  have h := List.countP_congr (l := List.range L)
    (p := fun i => decide (i + 1 < L)) (q := fun i => decide (i < L - 1))
    (fun i hi => by
      have := List.mem_range.mp hi
      simp only [decide_eq_true_eq]
      omega)
  rw [h, countP_range_lt]
  omega

lemma isSome_rollingMeanCol (xs : List ℚ) (w i : ℕ) (hi : i < xs.length) :
    ((rollingMeanCol xs w).getD i none).isSome = decide (w ≤ i + 1) := by
  rw [rollingMeanCol_getD _ _ _ hi]
  by_cases h : w - 1 ≤ i
  · rw [if_pos h]
    have hw : w ≤ i + 1 := by omega
    simp [hw]
  · rw [if_neg h]
    have hw : ¬w ≤ i + 1 := by omega
    simp [hw]

lemma isSome_shiftm1 (xs : List ℚ) (i : ℕ) (hi : i < xs.length) :
    ((shiftm1 xs).getD i none).isSome = decide (i + 1 < xs.length) := by
  rw [shiftm1_getD _ _ hi]
  by_cases h : i + 1 < xs.length
  · rw [if_pos h]
    simp [h]
  · rw [if_neg h]
    simp [h]

lemma rollingPass_countP (d : List LabeledEvent) (w w' : ℕ) (f : RollingObs → Bool) :
    (rollingPass d w').countP (fun r => r.rolling_window == w && f r)
      = if w' = w then (rollingPass d w).countP f else 0 := by
  by_cases h : w' = w
  · subst h
    rw [if_pos rfl]
    unfold rollingPass
    rw [List.countP_map, List.countP_map]
    refine List.countP_congr fun i _ => ?_
    simp
  · rw [if_neg h]
    unfold rollingPass
    rw [List.countP_map]
    refine List.countP_eq_zero.mpr fun i _ => ?_
    simp [h]

lemma sum_map_single {c : ℕ} {l : List ℕ} {g : ℕ → ℕ} {w : ℕ} (hnd : l.Nodup)
    (hmem : w ∈ l) (hg : ∀ w' ∈ l, g w' = if w' = w then c else 0) :
    (l.map g).sum = c := by
  induction l with
  | nil => simp at hmem
  | cons a t ih =>
    rw [List.map_cons, List.sum_cons]
    have hndt := List.nodup_cons.mp hnd
    rcases List.mem_cons.mp hmem with rfl | hmt
    · rw [hg w (List.mem_cons_self w t), if_pos rfl]
      have hz : (t.map g).sum = 0 := by
        refine List.sum_eq_zero fun x hx => ?_
        rcases List.mem_map.mp hx with ⟨w', hw', rfl⟩
        rw [hg w' (List.mem_cons_of_mem _ hw'), if_neg]
        intro hEq
        exact hndt.1 (hEq ▸ hw')
      rw [hz]
      omega
    · have hane : a ≠ w := fun hEq => hndt.1 (hEq ▸ hmt)
      rw [hg a (List.mem_cons_self a t), if_neg hane,
        ih hndt.2 hmt fun w' hw' => hg w' (List.mem_cons_of_mem _ hw')]
      omega

lemma countP_compute_rolling (df : List LabeledEvent) (mw w : ℕ) (hw1 : 1 ≤ w)
    (hw2 : w ≤ mw) (f : RollingObs → Bool) :
    (compute_rolling_stats df mw).countP (fun r => r.rolling_window == w && f r)
      = (rollingPass (sortByDate df) w).countP f := by
  unfold compute_rolling_stats
  rw [List.countP_flatten, List.map_map]
  refine sum_map_single (c := (rollingPass (sortByDate df) w).countP f) (w := w)
    (List.nodup_range' _ _) ?_ fun w' _ => ?_
  · exact List.mem_range'.mpr ⟨w - 1, by omega, by omega⟩
  · exact rollingPass_countP (sortByDate df) w w' f

lemma rollingPass_count_avg (d : List LabeledEvent) (w : ℕ) :
    (rollingPass d w).countP (fun r => r.rolling_avg.isSome)
      = d.length - (w - 1) := by
  unfold rollingPass
  rw [List.countP_map]
  refine (List.countP_congr fun i hi => ?_).trans (countP_range_ge d.length w)
  have hi' : i < (d.map LabeledEvent.is_hit).length := by
    rw [List.length_map]
    exact List.mem_range.mp hi
  show ((rollingMeanCol (d.map LabeledEvent.is_hit) w).getD i none).isSome = true
    ↔ decide (w ≤ i + 1) = true
  rw [isSome_rollingMeanCol _ w i hi']

lemma rollingPass_count_obp (d : List LabeledEvent) (w : ℕ) :
    (rollingPass d w).countP (fun r => r.rolling_obp.isSome)
      = d.length - (w - 1) := by
  unfold rollingPass
  rw [List.countP_map]
  refine (List.countP_congr fun i hi => ?_).trans (countP_range_ge d.length w)
  have hi' : i < (d.map LabeledEvent.is_on_base).length := by
    rw [List.length_map]
    exact List.mem_range.mp hi
  show ((rollingMeanCol (d.map LabeledEvent.is_on_base) w).getD i none).isSome = true
    ↔ decide (w ≤ i + 1) = true
  rw [isSome_rollingMeanCol _ w i hi']

lemma rollingPass_count_slg (d : List LabeledEvent) (w : ℕ) :
    (rollingPass d w).countP (fun r => r.rolling_slg.isSome)
      = d.length - (w - 1) := by
  unfold rollingPass
  rw [List.countP_map]
  refine (List.countP_congr fun i hi => ?_).trans (countP_range_ge d.length w)
  have hi' : i < (d.map LabeledEvent.total_bases).length := by
    rw [List.length_map]
    exact List.mem_range.mp hi
  show ((rollingMeanCol (d.map LabeledEvent.total_bases) w).getD i none).isSome = true
    ↔ decide (w ≤ i + 1) = true
  rw [isSome_rollingMeanCol _ w i hi']

lemma rollingPass_count_next_hit (d : List LabeledEvent) (w : ℕ) :
    (rollingPass d w).countP (fun r => r.next_is_hit.isSome)
      = d.length - 1 := by
  unfold rollingPass
  rw [List.countP_map]
  refine (List.countP_congr fun i hi => ?_).trans (countP_range_next d.length)
  have hi' : i < (d.map LabeledEvent.is_hit).length := by
    rw [List.length_map]
    exact List.mem_range.mp hi
  show ((shiftm1 (d.map LabeledEvent.is_hit)).getD i none).isSome = true
    ↔ decide (i + 1 < d.length) = true
  rw [isSome_shiftm1 _ i hi', List.length_map]

lemma rollingPass_count_next_ob (d : List LabeledEvent) (w : ℕ) :
    (rollingPass d w).countP (fun r => r.next_is_on_base.isSome)
      = d.length - 1 := by
  unfold rollingPass
  rw [List.countP_map]
  refine (List.countP_congr fun i hi => ?_).trans (countP_range_next d.length)
  have hi' : i < (d.map LabeledEvent.is_on_base).length := by
    rw [List.length_map]
    exact List.mem_range.mp hi
  show ((shiftm1 (d.map LabeledEvent.is_on_base)).getD i none).isSome = true
    ↔ decide (i + 1 < d.length) = true
  rw [isSome_shiftm1 _ i hi', List.length_map]

lemma rollingPass_count_next_tb (d : List LabeledEvent) (w : ℕ) :
    (rollingPass d w).countP (fun r => r.next_total_bases.isSome)
      = d.length - 1 := by
  unfold rollingPass
  rw [List.countP_map]
  refine (List.countP_congr fun i hi => ?_).trans (countP_range_next d.length)
  have hi' : i < (d.map LabeledEvent.total_bases).length := by
    rw [List.length_map]
    exact List.mem_range.mp hi
  show ((shiftm1 (d.map LabeledEvent.total_bases)).getD i none).isSome = true
    ↔ decide (i + 1 < d.length) = true
  rw [isSome_shiftm1 _ i hi', List.length_map]

/-- C5: for a timeline of length L and any window size W in
1..max_window, the number of window-W positions at which each rolling
statistic is defined equals `max 0 (L - W + 1)`, and the number of
window-W positions at which each next-outcome target is defined equals
`max 0 (L - 1)`. -/
theorem compute_rolling_stats_support_counts (df : List LabeledEvent)
    (w max_window : ℕ) (hw1 : 1 ≤ w) (hw2 : w ≤ max_window) :
    ((((compute_rolling_stats df max_window).countP fun r =>
        r.rolling_window == w && r.rolling_avg.isSome) : ℤ)
      = max 0 ((df.length : ℤ) - w + 1))
    ∧ ((((compute_rolling_stats df max_window).countP fun r =>
        r.rolling_window == w && r.rolling_obp.isSome) : ℤ)
      = max 0 ((df.length : ℤ) - w + 1))
    ∧ ((((compute_rolling_stats df max_window).countP fun r =>
        r.rolling_window == w && r.rolling_slg.isSome) : ℤ)
      = max 0 ((df.length : ℤ) - w + 1))
    ∧ ((((compute_rolling_stats df max_window).countP fun r =>
        r.rolling_window == w && r.next_is_hit.isSome) : ℤ)
      = max 0 ((df.length : ℤ) - 1))
    ∧ ((((compute_rolling_stats df max_window).countP fun r =>
        r.rolling_window == w && r.next_is_on_base.isSome) : ℤ)
      = max 0 ((df.length : ℤ) - 1))
    ∧ ((((compute_rolling_stats df max_window).countP fun r =>
        r.rolling_window == w && r.next_total_bases.isSome) : ℤ)
      = max 0 ((df.length : ℤ) - 1)) := by
  refine ⟨?_, ?_, ?_, ?_, ?_, ?_⟩
  · rw [countP_compute_rolling df max_window w hw1 hw2 _, rollingPass_count_avg,
      sortByDate_length]
    omega
  · rw [countP_compute_rolling df max_window w hw1 hw2 _, rollingPass_count_obp,
      sortByDate_length]
    omega
  · rw [countP_compute_rolling df max_window w hw1 hw2 _, rollingPass_count_slg,
      sortByDate_length]
    omega
  · rw [countP_compute_rolling df max_window w hw1 hw2 _, rollingPass_count_next_hit,
      sortByDate_length]
    omega
  · rw [countP_compute_rolling df max_window w hw1 hw2 _, rollingPass_count_next_ob,
      sortByDate_length]
    omega
  · rw [countP_compute_rolling df max_window w hw1 hw2 _, rollingPass_count_next_tb,
      sortByDate_length]
    omega

/-- A three-event labeled timeline used as the C5 witness input. -/
def timelineW : List LabeledEvent :=
  get_pa_outcomes [⟨1, 0, some "single"⟩, ⟨1, 1, none⟩, ⟨1, 2, some "walk"⟩]

/-- Witness for C5 at the concrete three-event timeline with window 2 of
1..3. -/
theorem compute_rolling_stats_support_counts_witness :
    1 ≤ 2 ∧ 2 ≤ 3
    ∧ ((((compute_rolling_stats timelineW 3).countP fun r =>
        r.rolling_window == 2 && r.rolling_avg.isSome) : ℤ)
      = max 0 ((timelineW.length : ℤ) - 2 + 1))
    ∧ ((((compute_rolling_stats timelineW 3).countP fun r =>
        r.rolling_window == 2 && r.next_is_hit.isSome) : ℤ)
      = max 0 ((timelineW.length : ℤ) - 1)) :=
  ⟨by decide, by decide,
    (compute_rolling_stats_support_counts timelineW 2 3 (by decide) (by decide)).1,
    (compute_rolling_stats_support_counts timelineW 2 3 (by decide)
      (by decide)).2.2.2.1⟩

/-- One row of the final correlation table (source lines 143-148);
`Option ℝ` models the `NaN` a degenerate `Series.corr` returns. -/
structure CorrRow where
  window : ℕ
  avg_corr : Option ℝ
  obp_corr : Option ℝ
  slg_corr : Option ℝ

/-- Mean of a rational column. -/
def meanQ (xs : List ℚ) : ℚ := xs.sum / (xs.length : ℚ)

/-- Centered sum of squares of a column (the numerator sums pandas
computes for a Pearson correlation). -/
def varSum (xs : List ℚ) : ℚ := (xs.map fun x => (x - meanQ xs) ^ 2).sum

/-- Centered cross sum of a paired column. -/
def covSum (ps : List (ℚ × ℚ)) : ℚ :=
  (ps.map fun p =>
    (p.1 - meanQ (ps.map Prod.fst)) * (p.2 - meanQ (ps.map Prod.snd))).sum

/-- Semantics of `Series.corr` (source lines 139-141): the Pearson
coefficient
`covSum / sqrt (varSum x * varSum y)`. With floats the result is `NaN`
exactly when either centered sum of squares is zero (this also covers
fewer than two paired observations), uniformly modelled as `none`. -/
noncomputable def pearson (ps : List (ℚ × ℚ)) : Option ℝ :=
  if varSum (ps.map Prod.fst) = 0 ∨ varSum (ps.map Prod.snd) = 0 then none
  else some ((covSum ps : ℝ) /
    Real.sqrt ((varSum (ps.map Prod.fst) : ℝ) * (varSum (ps.map Prod.snd) : ℝ)))

/-- The valid paired observations of a group for one metric: rows where
both operands are present (pandas `corr` excludes `NaN` pairs). -/
def pairedObs (g : List RollingObs) (fx fy : RollingObs → Option ℚ) :
    List (ℚ × ℚ) :=
  g.filterMap fun r => (fx r).bind fun a => (fy r).map fun b => (a, b)

/-- The rows sharing window size `w` (one group of the groupby on the
rolling_window column, source line 135), in input order. -/
def windowGroup (df : List RollingObs) (w : ℕ) : List RollingObs :=
  df.filter fun r => r.rolling_window == w

/-- The correlation row emitted for one window-size group (source lines
138-148). -/
noncomputable def corrRowFor (df : List RollingObs) (w : ℕ) : CorrRow :=
  { window := w
    avg_corr := pearson (pairedObs (windowGroup df w)
      RollingObs.rolling_avg RollingObs.next_is_hit)
    obp_corr := pearson (pairedObs (windowGroup df w)
      RollingObs.rolling_obp RollingObs.next_is_on_base)
    slg_corr := pearson (pairedObs (windowGroup df w)
      RollingObs.rolling_slg RollingObs.next_total_bases) }

/-- The distinct window sizes present, ascending (`groupby` sorts its
keys). -/
def windowKeys (df : List RollingObs) : List ℕ :=
  sortedKeys (df.map RollingObs.rolling_window)

/-- Function `compute_correlations` (source lines 134-153): one
`CorrRow` per
window size present in the table, ascending. -/
noncomputable def compute_correlations (df : List RollingObs) : List CorrRow :=
  (windowKeys df).map (corrRowFor df)

lemma sortedKeys_perm {l₁ l₂ : List ℕ} (h : l₁.Perm l₂) :
    sortedKeys l₁ = sortedKeys l₂ := by
  unfold sortedKeys
  exact List.eq_of_perm_of_sorted
    (((List.perm_insertionSort _ _).trans h.dedup).trans
      (List.perm_insertionSort _ _).symm)
    (List.sorted_insertionSort _ _) (List.sorted_insertionSort _ _)

lemma meanQ_perm {l₁ l₂ : List ℚ} (h : l₁.Perm l₂) : meanQ l₁ = meanQ l₂ := by
  unfold meanQ
  rw [h.sum_eq, h.length_eq]

lemma varSum_perm {l₁ l₂ : List ℚ} (h : l₁.Perm l₂) : varSum l₁ = varSum l₂ := by
  unfold varSum
  rw [meanQ_perm h, (h.map fun x => (x - meanQ l₂) ^ 2).sum_eq]

lemma covSum_perm {l₁ l₂ : List (ℚ × ℚ)} (h : l₁.Perm l₂) :
    covSum l₁ = covSum l₂ := by
  unfold covSum
  rw [meanQ_perm (h.map Prod.fst), meanQ_perm (h.map Prod.snd),
    (h.map fun p => (p.1 - meanQ (l₂.map Prod.fst)) *
      (p.2 - meanQ (l₂.map Prod.snd))).sum_eq]

lemma pearson_perm {l₁ l₂ : List (ℚ × ℚ)} (h : l₁.Perm l₂) :
    pearson l₁ = pearson l₂ := by
  unfold pearson
  rw [varSum_perm (h.map Prod.fst), varSum_perm (h.map Prod.snd), covSum_perm h]

lemma corrRowFor_perm {df₁ df₂ : List RollingObs} (h : df₁.Perm df₂) (w : ℕ) :
    corrRowFor df₁ w = corrRowFor df₂ w := by
  have hg : (windowGroup df₁ w).Perm (windowGroup df₂ w) := h.filter _
  unfold corrRowFor pairedObs
  rw [pearson_perm (hg.filterMap fun r =>
      (RollingObs.rolling_avg r).bind fun a =>
        (RollingObs.next_is_hit r).map fun b => (a, b)),
    pearson_perm (hg.filterMap fun r =>
      (RollingObs.rolling_obp r).bind fun a =>
        (RollingObs.next_is_on_base r).map fun b => (a, b)),
    pearson_perm (hg.filterMap fun r =>
      (RollingObs.rolling_slg r).bind fun a =>
        (RollingObs.next_total_bases r).map fun b => (a, b))]

/-- C7: the Correlation Reducer is deterministic and order-independent:
two inputs that are row-permutations of each other (in particular two
runs on the same table) produce identical correlation tables, row for
row. -/
theorem compute_correlations_deterministic (df₁ df₂ : List RollingObs)
    (h : df₁.Perm df₂) : compute_correlations df₁ = compute_correlations df₂ := by
  unfold compute_correlations windowKeys
  rw [sortedKeys_perm (h.map RollingObs.rolling_window)]
  exact List.map_congr_left fun w _ => corrRowFor_perm h w

/-- A two-row correlation input. -/
def corrTblA : List RollingObs :=
  [⟨1, 0, 1, some 0, some 0, some 0, some 1, some 1, some 1⟩,
   ⟨2, 0, 1, some 1, some 1, some 1, some 0, some 0, some 0⟩]

/-- The same two rows in the opposite order. -/
def corrTblB : List RollingObs :=
  [⟨2, 0, 1, some 1, some 1, some 1, some 0, some 0, some 0⟩,
   ⟨1, 0, 1, some 0, some 0, some 0, some 1, some 1, some 1⟩]

/-- Witness for C7: the two concrete tables are permutations of each
other and get identical correlation tables. -/
theorem compute_correlations_deterministic_witness :
    corrTblA.Perm corrTblB
    ∧ compute_correlations corrTblA = compute_correlations corrTblB :=
  ⟨by decide, compute_correlations_deterministic corrTblA corrTblB (by decide)⟩

lemma sum_all_eq {xs : List ℚ} {c : ℚ} (h : ∀ x ∈ xs, x = c) :
    xs.sum = xs.length * c := by
  induction xs with
  | nil => simp
  | cons y t ih =>
    rw [List.sum_cons, ih fun x hx => h x (List.mem_cons_of_mem _ hx),
      h y (List.mem_cons_self y t), List.length_cons]
    push_cast
    ring

lemma varSum_const {xs : List ℚ} {c : ℚ} (h : ∀ x ∈ xs, x = c) :
    varSum xs = 0 := by
  cases xs with
  | nil => simp [varSum]
  | cons y t =>
    have hlen : (((y :: t).length : ℚ)) ≠ 0 := by
      rw [List.length_cons]
      push_cast
      positivity
    have hmean : meanQ (y :: t) = c := by
      unfold meanQ
      rw [sum_all_eq h, mul_comm, mul_div_assoc, div_self hlen, mul_one]
    refine List.sum_eq_zero fun x hx => ?_
    rcases List.mem_map.mp hx with ⟨z, hz, rfl⟩
    rw [hmean, h z hz]
    ring

lemma varSum_short {xs : List ℚ} (h : xs.length < 2) : varSum xs = 0 := by
  cases xs with
  | nil => simp [varSum]
  | cons y t =>
    cases t with
    | nil => exact varSum_const fun x hx => List.mem_singleton.mp hx
    | cons z u =>
      simp only [List.length_cons] at h
      omega

lemma pearson_none_fst {ps : List (ℚ × ℚ)} (h : varSum (ps.map Prod.fst) = 0) :
    pearson ps = none := by
  unfold pearson
  rw [if_pos (Or.inl h)]

lemma pearson_none_snd {ps : List (ℚ × ℚ)} (h : varSum (ps.map Prod.snd) = 0) :
    pearson ps = none := by
  unfold pearson
  rw [if_pos (Or.inr h)]

lemma pearson_none_short {ps : List (ℚ × ℚ)} (h : ps.length < 2) :
    pearson ps = none :=
  pearson_none_fst (varSum_short (by rw [List.length_map]; exact h))

/-- C8: in the Correlation Reducer, a window-size group with fewer than
two valid paired observations, or zero variance in either operand of a
metric, gets `none` (the uniform missing value) for the corresponding
correlation — never an exception, a zero, or a stray numeric; in
particular a group whose `rolling_avg` is constant across all rows gets
an undefined `avg_corr`. -/
theorem compute_correlations_degenerate (df : List RollingObs) (w : ℕ)
    (hw : w ∈ windowKeys df) :
    corrRowFor df w ∈ compute_correlations df
    ∧ ((pairedObs (windowGroup df w)
          RollingObs.rolling_avg RollingObs.next_is_hit).length < 2
        ∨ varSum ((pairedObs (windowGroup df w)
          RollingObs.rolling_avg RollingObs.next_is_hit).map Prod.fst) = 0
        ∨ varSum ((pairedObs (windowGroup df w)
          RollingObs.rolling_avg RollingObs.next_is_hit).map Prod.snd) = 0 →
        (corrRowFor df w).avg_corr = none)
    ∧ ((pairedObs (windowGroup df w)
          RollingObs.rolling_obp RollingObs.next_is_on_base).length < 2
        ∨ varSum ((pairedObs (windowGroup df w)
          RollingObs.rolling_obp RollingObs.next_is_on_base).map Prod.fst) = 0
        ∨ varSum ((pairedObs (windowGroup df w)
          RollingObs.rolling_obp RollingObs.next_is_on_base).map Prod.snd) = 0 →
        (corrRowFor df w).obp_corr = none)
    ∧ ((pairedObs (windowGroup df w)
          RollingObs.rolling_slg RollingObs.next_total_bases).length < 2
        ∨ varSum ((pairedObs (windowGroup df w)
          RollingObs.rolling_slg RollingObs.next_total_bases).map Prod.fst) = 0
        ∨ varSum ((pairedObs (windowGroup df w)
          RollingObs.rolling_slg RollingObs.next_total_bases).map Prod.snd) = 0 →
        (corrRowFor df w).slg_corr = none)
    ∧ ∀ c : ℚ, (∀ r ∈ windowGroup df w, r.rolling_avg = some c) →
        (corrRowFor df w).avg_corr = none := by
  refine ⟨List.mem_map.mpr ⟨w, hw, rfl⟩, ?_, ?_, ?_, ?_⟩
  · intro h
    show pearson (pairedObs (windowGroup df w)
      RollingObs.rolling_avg RollingObs.next_is_hit) = none
    rcases h with h | h | h
    · exact pearson_none_short h
    · exact pearson_none_fst h
    · exact pearson_none_snd h
  · intro h
    show pearson (pairedObs (windowGroup df w)
      RollingObs.rolling_obp RollingObs.next_is_on_base) = none
    rcases h with h | h | h
    · exact pearson_none_short h
    · exact pearson_none_fst h
    · exact pearson_none_snd h
  · intro h
    show pearson (pairedObs (windowGroup df w)
      RollingObs.rolling_slg RollingObs.next_total_bases) = none
    rcases h with h | h | h
    · exact pearson_none_short h
    · exact pearson_none_fst h
    · exact pearson_none_snd h
  · intro c hconst
    show pearson (pairedObs (windowGroup df w)
      RollingObs.rolling_avg RollingObs.next_is_hit) = none
    refine pearson_none_fst (varSum_const (c := c) fun x hx => ?_)
    rcases List.mem_map.mp hx with ⟨p, hp, rfl⟩
    rcases List.mem_filterMap.mp hp with ⟨r, hrg, hbind⟩
    rw [hconst r hrg] at hbind
    have hbind' : Option.map (fun b => (c, b)) r.next_is_hit = some p := hbind
    rcases Option.map_eq_some'.mp hbind' with ⟨b, _, hcb⟩
    exact (congrArg Prod.fst hcb).symm

/-- A two-row window-5 group whose `rolling_avg` is constant (1) while
the target varies. -/
def corrTblC : List RollingObs :=
  [⟨1, 0, 5, some 1, some 1, some 1, some 0, some 0, some 0⟩,
   ⟨2, 0, 5, some 1, some 1, some 1, some 1, some 1, some 1⟩]

/-- Witness for C8: window 5 is present in the concrete table, its row is
in the reducer output, and the constant `rolling_avg` forces an
undefined `avg_corr`. -/
theorem compute_correlations_degenerate_witness :
    corrRowFor corrTblC 5 ∈ compute_correlations corrTblC
    ∧ (corrRowFor corrTblC 5).avg_corr = none :=
  ⟨(compute_correlations_degenerate corrTblC 5 (by decide)).1,
   (compute_correlations_degenerate corrTblC 5 (by decide)).2.2.2.2 1 (by decide)⟩

lemma labelEvent_bounds (e : Event) :
    0 ≤ (labelEvent e).is_hit
    ∧ (labelEvent e).is_hit ≤ (labelEvent e).is_on_base
    ∧ (labelEvent e).is_on_base ≤ 1
    ∧ 0 ≤ (labelEvent e).total_bases
    ∧ (labelEvent e).total_bases ≤ 4 := by
  obtain ⟨b, d, c⟩ := e
  rcases c with _ | s
  · refine ⟨?_, ?_, ?_, ?_, ?_⟩ <;>
      simp [labelEvent, seriesIsin, seriesMapLookup]
  · refine ⟨?_, ?_, ?_, ?_, ?_⟩ <;>
      simp only [labelEvent, seriesIsin, seriesMapLookup, hitEvents, onBaseEvents,
        totalBasesMap, Option.bind_some, List.lookup, Option.getD,
        List.contains_cons, List.elem_nil, Bool.or_eq_true, beq_eq_decide] <;>
      by_cases h1 : s = "single" <;> by_cases h2 : s = "double" <;>
      by_cases h3 : s = "triple" <;> by_cases h4 : s = "home_run" <;>
      by_cases h5 : s = "walk" <;> by_cases h6 : s = "hit_by_pitch" <;>
      simp [h1, h2, h3, h4, h5, h6] <;> norm_num

lemma sum_map_nonneg {l : List LabeledEvent} {f : LabeledEvent → ℚ}
    (h : ∀ e ∈ l, 0 ≤ f e) : 0 ≤ (l.map f).sum := by
  refine List.sum_nonneg fun x hx => ?_
  rcases List.mem_map.mp hx with ⟨e, he, rfl⟩
  exact h e he

lemma sum_map_le_const {l : List LabeledEvent} {f : LabeledEvent → ℚ} {c : ℚ}
    (h : ∀ e ∈ l, f e ≤ c) : (l.map f).sum ≤ (l.length : ℚ) * c := by
  induction l with
  | nil => simp
  | cons e t ih =>
    have h1 := h e (List.mem_cons_self e t)
    have h2 := ih fun x hx => h x (List.mem_cons_of_mem _ hx)
    rw [List.map_cons, List.sum_cons, List.length_cons]
    push_cast
    nlinarith

lemma rollingMeanCol_getD_slice (xs : List ℚ) (w i : ℕ) (hi : i < xs.length)
    (hw : w ≤ i + 1) :
    (rollingMeanCol xs w).getD i none
      = some (((xs.drop (i + 1 - w)).take w).sum / (w : ℚ)) := by
  unfold rollingMeanCol
  rw [getD_map_range _ _ _ _ hi, if_pos hw]

lemma mem_rollingPass_bounds {d : List LabeledEvent} {w : ℕ} {r : RollingObs}
    (hd : ∀ e ∈ d, 0 ≤ e.is_hit ∧ e.is_hit ≤ e.is_on_base ∧ e.is_on_base ≤ 1
      ∧ 0 ≤ e.total_bases ∧ e.total_bases ≤ 4)
    (hw : 1 ≤ w) (hr : r ∈ rollingPass d w) (hdef : obsDefined r = true) :
    ∃ a o sl, r.rolling_avg = some a ∧ r.rolling_obp = some o
      ∧ r.rolling_slg = some sl
      ∧ 0 ≤ a ∧ a ≤ o ∧ o ≤ 1 ∧ 0 ≤ sl ∧ sl ≤ 4 := by
  unfold rollingPass at hr
  rcases List.mem_map.mp hr with ⟨i, hi, rfl⟩
  have hi' : i < d.length := List.mem_range.mp hi
  have hihit : i < (d.map LabeledEvent.is_hit).length := by
    rw [List.length_map]; exact hi'
  have hiob : i < (d.map LabeledEvent.is_on_base).length := by
    rw [List.length_map]; exact hi'
  have hitb : i < (d.map LabeledEvent.total_bases).length := by
    rw [List.length_map]; exact hi'
  simp only [obsDefined, Bool.and_eq_true] at hdef
  have hguard : w ≤ i + 1 := by
    have h1 := hdef.1.1.1.1.1
    rw [isSome_rollingMeanCol _ _ _ hihit] at h1
    exact of_decide_eq_true h1
  -- the three rolling cells as slice means
  have havg := rollingMeanCol_getD_slice (d.map LabeledEvent.is_hit) w i hihit hguard
  have hobp := rollingMeanCol_getD_slice (d.map LabeledEvent.is_on_base) w i hiob hguard
  have hslg := rollingMeanCol_getD_slice (d.map LabeledEvent.total_bases) w i hitb hguard
  rw [← List.map_drop, ← List.map_take] at havg hobp hslg
  set s : List LabeledEvent := (d.drop (i + 1 - w)).take w with hsdef
  have hsmem : ∀ e ∈ s, e ∈ d := fun e he =>
    List.mem_of_mem_drop (List.mem_of_mem_take he)
  have hslen : (s.length : ℚ) ≤ (w : ℚ) := by
    have : s.length ≤ w := by
      rw [hsdef, List.length_take]
      exact min_le_left _ _
    exact_mod_cast this
  have hwpos : (0 : ℚ) < (w : ℚ) := by exact_mod_cast hw
  refine ⟨(s.map LabeledEvent.is_hit).sum / (w : ℚ),
    (s.map LabeledEvent.is_on_base).sum / (w : ℚ),
    (s.map LabeledEvent.total_bases).sum / (w : ℚ), havg, hobp, hslg,
    ?_, ?_, ?_, ?_, ?_⟩
  · exact div_nonneg (sum_map_nonneg fun e he => (hd e (hsmem e he)).1) (le_of_lt hwpos)
  · refine div_le_div_of_nonneg_right ?_ (le_of_lt hwpos)
    exact List.sum_le_sum fun e he => (hd e (hsmem e he)).2.1
  · rw [div_le_one hwpos]
    calc (s.map LabeledEvent.is_on_base).sum
        ≤ (s.length : ℚ) * 1 := sum_map_le_const fun e he => (hd e (hsmem e he)).2.2.1
      _ ≤ (w : ℚ) := by rw [mul_one]; exact hslen
  · exact div_nonneg (sum_map_nonneg fun e he => (hd e (hsmem e he)).2.2.2.1)
      (le_of_lt hwpos)
  · rw [div_le_iff₀ hwpos]
    calc (s.map LabeledEvent.total_bases).sum
        ≤ (s.length : ℚ) * 4 := sum_map_le_const fun e he => (hd e (hsmem e he)).2.2.2.2
      _ ≤ 4 * (w : ℚ) := by rw [mul_comm]; nlinarith

/-- C10: every row of the unified table returned by the Multi-Player
Aggregator (after dropping undefined rows) has defined rolling values
with `0 ≤ rolling_avg ≤ rolling_obp ≤ 1` and `0 ≤ rolling_slg ≤ 4` — the
signal invariant preserved by trailing means. -/
theorem process_all_players_row_bounds (data : List Event)
    (min_len max_window : ℕ) (t : List RollingObs)
    (hok : process_all_players data min_len max_window = Except.ok t)
    (r : RollingObs) (hr : r ∈ t) :
    ∃ a o sl, r.rolling_avg = some a ∧ r.rolling_obp = some o
      ∧ r.rolling_slg = some sl
      ∧ 0 ≤ a ∧ a ≤ o ∧ o ≤ 1 ∧ 0 ≤ sl ∧ sl ≤ 4 := by
  simp only [process_all_players] at hok
  split at hok
  · exact absurd hok (by simp)
  · rw [Except.ok.injEq] at hok
    subst hok
    obtain ⟨hflat, hdef⟩ := List.mem_filter.mp hr
    rcases List.mem_flatten.mp hflat with ⟨bl, hbl, hrbl⟩
    rcases List.mem_filterMap.mp hbl with ⟨b', hb', hsome⟩
    by_cases hlen :
        ((get_pa_outcomes data).filter fun e => e.batter == b').length < min_len
    · rw [if_pos hlen] at hsome
      exact absurd hsome (by simp)
    · rw [if_neg hlen] at hsome
      rw [Option.some.injEq] at hsome
      subst hsome
      simp only [compute_rolling_stats] at hrbl
      rcases List.mem_flatten.mp hrbl with ⟨bl2, hbl2, hrbl2⟩
      rcases List.mem_map.mp hbl2 with ⟨w, hwmem, rfl⟩
      have hw1 : 1 ≤ w := by
        rcases List.mem_range'.mp hwmem with ⟨k, hk, rfl⟩
        omega
      refine mem_rollingPass_bounds ?_ hw1 hrbl2 hdef
      intro e he
      have hed : e ∈ get_pa_outcomes data :=
        (List.mem_filter.mp (mem_sortByDate.mp he)).1
      rcases List.mem_map.mp hed with ⟨ev, _, rfl⟩
      exact labelEvent_bounds ev

lemma headD_mem {α : Type} [Inhabited α] {l : List α} (h : l ≠ []) :
    l.headD default ∈ l := by
  cases l with
  | nil => exact absurd rfl h
  | cons a t => exact List.mem_cons_self a t

/-- A three-event single-batter dataset for the C10 witness. -/
def eventsW : List Event :=
  [⟨1, 0, some "single"⟩, ⟨1, 1, some "walk"⟩, ⟨1, 2, none⟩]

/-- The unified table the aggregator returns on `eventsW` with threshold
2 and window cap 2. -/
def obsW : List RollingObs := (process_all_players eventsW 2 2).toOption.getD []

/-- The first row of that table. -/
def rW : RollingObs := obsW.headD default

/-- Witness for C10 at a concrete run: the aggregator succeeds, its
first row is in the table, and that row satisfies the bounds. -/
theorem process_all_players_row_bounds_witness :
    process_all_players eventsW 2 2 = Except.ok obsW
    ∧ rW ∈ obsW
    ∧ ∃ a o sl, rW.rolling_avg = some a ∧ rW.rolling_obp = some o
        ∧ rW.rolling_slg = some sl
        ∧ 0 ≤ a ∧ a ≤ o ∧ o ≤ 1 ∧ 0 ≤ sl ∧ sl ≤ 4 := by
  have hok : process_all_players eventsW 2 2 = Except.ok obsW := rfl
  have hne : obsW ≠ [] := by decide
  have hmem : rW ∈ obsW := headD_mem hne
  exact ⟨hok, hmem,
    process_all_players_row_bounds eventsW 2 2 obsW hok rW hmem⟩
